import Mathlib

/-!
# go-umeng: request construction, signing and response decoding

A shallow embedding of `http_client.go`.  Go strings and byte slices are
modelled by `String` (valid UTF-8 text), `int64` and `int32` by `Int`, Go maps
by association lists (a real Go map has pairwise distinct keys; `nil` maps are
kept apart from empty ones), and values of type `interface{}` by `GoValue`.

The library calls the file makes (`crypto/md5`, `net/http`, `json.Unmarshal`)
are the fields of `Lib`; the process-wide variables (`Host`, the four paths,
the app keys and master secrets) are the fields of `Config`.  `json.Marshal`
is modelled concretely from the struct tags of the source: first to a `JSON`
tree (`toJSON`), then to text (`JSON.render`).
-/

set_option autoImplicit false

namespace Umeng

/-! ## JSON trees and their text -/

/-- JSON documents as `encoding/json` writes them.  `raw` is a fragment that
is already encoded (the output of a value of a type not modelled here). -/
inductive JSON where
  | null
  | bool (b : Bool)
  | num (n : Int)
  | str (s : String)
  | arr (xs : List JSON)
  | obj (kvs : List (String × JSON))
  | raw (bytes : String)

/-- One lower-case hexadecimal digit. -/
def hexDigit (n : Nat) : Char :=
  if n < 10 then Char.ofNat (48 + n) else Char.ofNat (87 + n)

/-- How `encoding/json` writes one character inside a string literal, with
HTML escaping on (as `json.Marshal` has it).  Control characters other than
newline, carriage return and tab are written in the six-character form. -/
def escapeChar (c : Char) : String :=
  if c = '"' then "\\\""
  else if c = '\\' then "\\\\"
  else if c = '\n' then "\\n"
  else if c = '\r' then "\\r"
  else if c = '\t' then "\\t"
  else if c.toNat < 32 ∨ c = '<' ∨ c = '>' ∨ c = '&' then
    "\\u00" ++ String.mk [hexDigit (c.toNat / 16), hexDigit (c.toNat % 16)]
  else if c.toNat = 0x2028 then "\\u2028"
  else if c.toNat = 0x2029 then "\\u2029"
  else String.mk [c]

/-- A JSON string literal. -/
def quote (s : String) : String :=
  "\"" ++ s.data.foldr (fun c acc => escapeChar c ++ acc) "" ++ "\""

mutual
/-- The compact text of a JSON tree: no white space, members in list order. -/
def JSON.render : JSON → String
  | .null => "null"
  | .bool b => if b then "true" else "false"
  | .num n => toString n
  | .str s => quote s
  | .arr xs => "[" ++ renderElems xs ++ "]"
  | .obj kvs => "\x7b" ++ renderFields kvs ++ "\x7d"
  | .raw b => b
/-- Array elements, comma separated. -/
def renderElems : List JSON → String
  | [] => ""
  | [x] => x.render
  | x :: y :: rest => x.render ++ "," ++ renderElems (y :: rest)
/-- Object members, comma separated. -/
def renderFields : List (String × JSON) → String
  | [] => ""
  | [(k, v)] => quote k ++ ":" ++ v.render
  | (k, v) :: y :: rest => quote k ++ ":" ++ v.render ++ "," ++ renderFields (y :: rest)
end

/-- The member names of a JSON object, in order (empty for other trees). -/
def JSON.keys : JSON → List String
  | .obj kvs => kvs.map Prod.fst
  | _ => []

/-- Byte-wise order of two strings, on their characters (for UTF-8 text the
order of the code points is the order of the bytes). -/
def keyLt : List Char → List Char → Bool
  | [], [] => false
  | [], _ :: _ => true
  | _ :: _, [] => false
  | a :: as, b :: bs => a.toNat < b.toNat || (a.toNat == b.toNat && keyLt as bs)

/-- Insert a member into a key-sorted member list. -/
def insertSorted {α : Type} (kv : String × α) : List (String × α) → List (String × α)
  | [] => [kv]
  | x :: xs => if keyLt x.1.data kv.1.data then x :: insertSorted kv xs else kv :: x :: xs

/-- Map members in the order `encoding/json` writes them: sorted by key. -/
def sortKeys {α : Type} (kvs : List (String × α)) : List (String × α) :=
  kvs.foldr insertSorted []

/-! ## Dynamic values -/

/-- A value held in a Go `interface{}`.  `object` and `array` are
`map[string]interface{}` and `[]interface{}`, the types `json.Unmarshal`
produces for JSON objects and arrays; `nilObject` and `nilArray` are their nil
values.  `foreign` is a value of any other Go type, with the bytes
`json.Marshal` writes for it (`none` when it reports an error). -/
inductive GoValue where
  | nil
  | str (s : String)
  | int (n : Int)
  | bool (b : Bool)
  | object (m : List (String × GoValue))
  | nilObject
  | array (xs : List GoValue)
  | nilArray
  | foreign (enc : Option String)

mutual
/-- The tree `json.Marshal` writes for a dynamic value; `none` is an error. -/
def GoValue.toJSON : GoValue → Option JSON
  | .nil => some .null
  | .str s => some (.str s)
  | .int n => some (.num n)
  | .bool b => some (.bool b)
  | .object m => (membersToJSON m).map (fun kvs => .obj (sortKeys kvs))
  | .nilObject => some .null
  | .array xs => (elemsToJSON xs).map .arr
  | .nilArray => some .null
  | .foreign enc => enc.map .raw
/-- The members of a `map[string]interface{}`, each value encoded. -/
def membersToJSON : List (String × GoValue) → Option (List (String × JSON))
  | [] => some []
  | (k, v) :: rest =>
    match v.toJSON, membersToJSON rest with
    | some j, some js => some ((k, j) :: js)
    | _, _ => none
/-- The elements of a `[]interface{}`, each encoded. -/
def elemsToJSON : List GoValue → Option (List JSON)
  | [] => some []
  | v :: rest =>
    match v.toJSON, elemsToJSON rest with
    | some j, some js => some (j :: js)
    | _, _ => none
end

/-- Go `map[string]string`; `none` is the nil map. -/
abbrev StrMap := Option (List (String × String))

/-- Go `len` of a `map[string]string`. -/
def StrMap.len : StrMap → Nat
  | none => 0
  | some kvs => kvs.length

/-- The keys of a real Go map are pairwise distinct. -/
def StrMap.WF : StrMap → Prop
  | none => True
  | some kvs => (kvs.map Prod.fst).Nodup

/-- The tree `json.Marshal` writes for a `map[string]string`. -/
def StrMap.toJSON : StrMap → JSON
  | none => .null
  | some kvs => .obj (sortKeys (kvs.map (fun kv => (kv.1, JSON.str kv.2))))

/-! ## Message model -/

/-- Go type `Platform` (an `int32`). -/
abbrev Platform := Int

/-- Constant `AppAndroid`. -/
def AppAndroid : Platform := 1

/-- Constant `AppIOS`. -/
def AppIOS : Platform := 2

/-- Struct `Policy`. -/
structure Policy where
  StartTime : String := ""
  ExpireTime : String := ""
  MaxSendNum : Int := 0
  OutBizNo : String := ""
  ApnsCollapseId : String := ""

/-- Struct `AndroidBody`. -/
structure AndroidBody where
  DisplayType : String := ""
  Title : String := ""
  Text : String := ""
  Icon : String := ""
  LargeIcon : String := ""
  Img : String := ""
  ExpandImage : String := ""
  Sound : String := ""
  BuilderId : Int := 0
  PlayVibrate : String := ""
  PlayLights : String := ""
  PlaySound : String := ""
  AfterOpen : String := ""
  Url : String := ""
  Activity : String := ""
  Custom : GoValue := .nil

/-- Struct `AndroidPayload`. -/
structure AndroidPayload where
  DisplayType : String := ""
  Body : AndroidBody := {}
  Extra : StrMap := none

/-- Map type `IOSPayload` (`map[string]interface{}`), as its entries. -/
abbrev IOSPayload := List (String × GoValue)

/-- Struct `Alert`. -/
structure Alert where
  Title : String := ""
  SubTitle : String := ""
  Body : String := ""

/-- Struct `IOSAps`. -/
structure IOSAps where
  Alert : GoValue := .nil
  Badge : Int := 0
  Sound : String := ""
  ContentAvailable : Int := 0
  Category : String := ""
  Image : String := ""
  MutableContent : Int := 0

/-- Struct `ChannelProperties`. -/
structure ChannelProperties where
  ChannelActivity : String := ""
  XiaomiChannelId : String := ""
  VivoClassification : String := ""
  VivoCategory : String := ""
  OppoChannelId : String := ""
  HuaweiChannelImportance : String := ""
  HuaweiChannelCategory : String := ""

/-- What the field `Payload interface{}` of `Data` holds: the pointer to an
`AndroidPayload` or the `IOSPayload` map that `Push` stores there, or any
other dynamic value (`dyn .nil` is the nil interface of a fresh envelope). -/
inductive PayloadValue where
  | android (p : AndroidPayload)
  | ios (p : IOSPayload)
  | dyn (v : GoValue)

/-- Struct `Data`, the request envelope.  `Type_` is the field `Type`;
`dataBytes` is `none` for the nil slice. -/
structure Data where
  Platform : Umeng.Platform := 0
  AppKey : String := ""
  TimeStamp : String := ""
  Type_ : String := ""
  DeviceTokens : String := ""
  FileContent : String := ""
  AliasType : String := ""
  Alias : String := ""
  FileId : String := ""
  Filter : GoValue := .nil
  Payload : PayloadValue := .dyn .nil
  Policy : Umeng.Policy := {}
  ProductionMode : String := ""
  Description : String := ""
  ChannelProperties : Umeng.ChannelProperties := {}
  dataBytes : Option String := none

/-- Struct `response`. -/
structure response where
  Code : String := ""
  Data : StrMap := none

/-- Type `Result`. -/
abbrev Result := StrMap

/-! ## What the struct tags make `json.Marshal` write -/

/-- A string field tagged `omitempty`: left out when empty. -/
def strOmit (key val : String) : List (String × JSON) :=
  if val = "" then [] else [(key, .str val)]

/-- An `int64` field tagged `omitempty`: left out when zero. -/
def intOmit (key : String) (val : Int) : List (String × JSON) :=
  if val = 0 then [] else [(key, .num val)]

/-- An `interface{}` field tagged `omitempty`: left out only when it is the
nil interface; `none` when the value held cannot be encoded. -/
def ifaceOmit (key : String) (val : GoValue) : Option (List (String × JSON)) :=
  match val with
  | .nil => some []
  | v => v.toJSON.map (fun j => [(key, j)])

/-- A `map[string]string` field tagged `omitempty`: left out when its length
is zero. -/
def mapOmit (key : String) (val : StrMap) : List (String × JSON) :=
  if val.len = 0 then [] else [(key, val.toJSON)]

/-- Encoding of `Policy` (every field is tagged `omitempty`). -/
def Policy.toJSON (p : Policy) : JSON :=
  .obj (strOmit "start_time" p.StartTime ++ strOmit "expire_time" p.ExpireTime ++
    intOmit "max_send_num" p.MaxSendNum ++ strOmit "out_biz_no" p.OutBizNo ++
    strOmit "apns_collapse_id" p.ApnsCollapseId)

/-- Encoding of `AndroidBody`; `DisplayType` is tagged `-` and never written. -/
def AndroidBody.toJSON (b : AndroidBody) : Option JSON :=
  (ifaceOmit "custom" b.Custom).map (fun custom =>
    .obj (strOmit "title" b.Title ++ strOmit "text" b.Text ++ strOmit "icon" b.Icon ++
      strOmit "largeIcon" b.LargeIcon ++ strOmit "img" b.Img ++
      strOmit "expand_image" b.ExpandImage ++ strOmit "sound" b.Sound ++
      intOmit "builder_id" b.BuilderId ++ strOmit "play_vibrate" b.PlayVibrate ++
      strOmit "play_lights" b.PlayLights ++ strOmit "play_sound" b.PlaySound ++
      strOmit "after_open" b.AfterOpen ++ strOmit "url" b.Url ++
      strOmit "activity" b.Activity ++ custom))

/-- Encoding of `AndroidPayload`.  `omitempty` has no effect on the
struct-typed field `Body`: a struct is never an empty value. -/
def AndroidPayload.toJSON (p : AndroidPayload) : Option JSON :=
  p.Body.toJSON.map (fun body =>
    .obj (strOmit "display_type" p.DisplayType ++ [("body", body)] ++ mapOmit "extra" p.Extra))

/-- Encoding of `Alert`. -/
def Alert.toJSON (a : Alert) : JSON :=
  .obj (strOmit "title" a.Title ++ strOmit "subtitle" a.SubTitle ++ strOmit "body" a.Body)

/-- Encoding of `IOSAps`. -/
def IOSAps.toJSON (a : IOSAps) : Option JSON :=
  (ifaceOmit "alert" a.Alert).map (fun alert =>
    .obj (alert ++ intOmit "badge" a.Badge ++ strOmit "sound" a.Sound ++
      intOmit "content-available" a.ContentAvailable ++ strOmit "category" a.Category ++
      strOmit "image" a.Image ++ intOmit "mutable-content" a.MutableContent))

/-- An `Alert` struct held in an `interface{}`. -/
def Alert.toValue (a : Alert) : GoValue := .foreign (some a.toJSON.render)

/-- An `IOSAps` struct held in an `interface{}`. -/
def IOSAps.toValue (a : IOSAps) : GoValue := .foreign (a.toJSON.map JSON.render)

/-- Encoding of `ChannelProperties`, tag by tag as the source has them: the
two Huawei fields carry no `omitempty`. -/
def ChannelProperties.toJSON (c : ChannelProperties) : JSON :=
  .obj (strOmit "channel_activity" c.ChannelActivity ++
    strOmit "xiaomi_channAel_id" c.XiaomiChannelId ++
    strOmit "vivo_classification" c.VivoClassification ++
    strOmit "vivo_category" c.VivoCategory ++
    strOmit "oppo_channel_id" c.OppoChannelId ++
    [("huawei_channel_importance", .str c.HuaweiChannelImportance)] ++
    [("huawei_channel_category", .str c.HuaweiChannelCategory)])

/-- Encoding of the value held in `Data.Payload`. -/
def PayloadValue.toJSON : PayloadValue → Option JSON
  | .android p => p.toJSON
  | .ios p => (GoValue.object p).toJSON
  | .dyn v => v.toJSON

/-- The field `Payload`, tagged `omitempty`: left out only when nil. -/
def payloadOmit (key : String) (val : PayloadValue) : Option (List (String × JSON)) :=
  match val with
  | .dyn .nil => some []
  | v => v.toJSON.map (fun j => [(key, j)])

/-- Encoding of `Data`.  `Platform` is tagged `-` and `dataBytes` is not
exported; `omitempty` has no effect on the struct-typed fields `Policy` and
`ChannelProperties`. -/
def Data.toJSON (d : Data) : Option JSON :=
  match ifaceOmit "filter" d.Filter, payloadOmit "payload" d.Payload with
  | some filter, some payload =>
    some (.obj (strOmit "appkey" d.AppKey ++ strOmit "timestamp" d.TimeStamp ++
      strOmit "type" d.Type_ ++ strOmit "device_tokens" d.DeviceTokens ++
      strOmit "content" d.FileContent ++ strOmit "alias_type" d.AliasType ++
      strOmit "alias" d.Alias ++ strOmit "file_id" d.FileId ++ filter ++ payload ++
      [("policy", d.Policy.toJSON)] ++ strOmit "production_mode" d.ProductionMode ++
      strOmit "description" d.Description ++
      [("channel_properties", d.ChannelProperties.toJSON)]))
  | _, _ => none

/-- Result of `json.Marshal(data)`: the bytes, or `none` for an error. -/
def marshalData (d : Data) : Option String :=
  d.toJSON.map JSON.render

/-- Result of `json.Marshal` on a `Result`; it has no failing input. -/
def marshalResult (r : Result) : Option String :=
  some r.toJSON.render

/-! ## Configuration, library and effects -/

/-- The package-level variables. -/
structure Config where
  Host : String := "http://msg.umeng.com"
  UploadPath : String := "/upload"
  StatusPath : String := "/api/status"
  CancelPath : String := "/api/cancel"
  PostPath : String := "/api/send"
  AndroidAppKey : String := ""
  IOSAppKey : String := ""
  AndroidAppMasterSecret : String := ""
  IOSAppMasterSecret : String := ""

/-- Struct `APIError`. -/
structure APIError where
  message : String

/-- A Go `error` value: an `APIError` of this package, or an error made by a
library, identified by its text. -/
inductive GoError where
  | api (e : APIError)
  | library (text : String)

/-- Method `APIError.Error`. -/
def APIError.Error (e : APIError) : String := e.message

/-- Function `newAPIError`. -/
def newAPIError (msg : String) : APIError := ⟨"umeng: " ++ msg⟩

/-- An outgoing HTTP request: method, URL, body bytes and the
`Content-Type` header. -/
structure Request where
  Method : String
  URL : String
  Body : String
  ContentType : String

/-- An HTTP response: `StatusCode`, `Status` (the status text, such as
`500 Internal Server Error`) and what `ioutil.ReadAll` makes of its body. -/
structure Response where
  StatusCode : Int
  Status : String
  Body : Except GoError String

/-- The library functions the file calls. -/
structure Lib where
  /-- Hex text of the MD5 digest (`crypto/md5` with `hex.EncodeToString`). -/
  md5 : String → String
  /-- The error of `http.NewRequest` for a method and URL, if any. -/
  newRequest : String → String → Option GoError
  /-- Method `Do` of `http.Client`. -/
  roundTrip : Request → Except GoError Response
  /-- Function `json.Unmarshal` into a `response`. -/
  unmarshal : String → Except GoError response

/-- Function `Md5`. -/
def Md5 (lib : Lib) (s : String) : String := lib.md5 s

/-- An observable step of a call, recorded in the order it happens. -/
inductive Event where
  /-- The envelope was passed to `json.Marshal`, with this result. -/
  | marshaled (out : Option String)
  /-- The digest of this text was computed. -/
  | hashed (input : String)
  /-- This request was handed to the HTTP client. -/
  | posted (req : Request)

/-- The envelope a method is called on, with the steps recorded so far. -/
structure World where
  data : Data
  trace : List Event := []

/-- How a call ends: by a panic with its message, or by returning a result
and an error.  Both carry the envelope and the steps as they are then. -/
inductive Outcome where
  | panicked (msg : String) (w : World)
  | returned (result : Result) (err : Option GoError) (w : World)

/-- Go `len` of a string: its length in bytes. -/
def goLen (s : String) : Nat := s.utf8ByteSize

/-- What is passed as `body` to `Push`: a value of type `AndroidBody`, or a
value of any other dynamic type. -/
inductive BodyArg where
  | androidBody (v : AndroidBody)
  | other (v : GoValue)

/-- What is passed as `policy` to `Push`: a value of type `Policy`, or a
value of any other dynamic type. -/
inductive PolicyArg where
  | policy (v : Policy)
  | other (v : GoValue)

/-! ## The functions of the source -/

/-- Function `NewData`. -/
def NewData (cfg : Config) (pf : Platform) : Data :=
  let data : Data := { Platform := pf }
  let data := if data.Platform = AppAndroid then { data with AppKey := cfg.AndroidAppKey } else data
  let data := if data.Platform = AppIOS then { data with AppKey := cfg.IOSAppKey } else data
  data

/-- Method `Data.SetPolicy`. -/
def Data.SetPolicy (data : Data) (policy : Umeng.Policy) : Data :=
  { data with Policy := policy }

/-- Method `Data.Sign`: returns the envelope with its cache set, and the URL. -/
def Data.Sign (lib : Lib) (cfg : Config) (w : World) (reqPath : String) : World × String :=
  let out := marshalData w.data
  let w : World := { data := { w.data with dataBytes := out }, trace := w.trace ++ [.marshaled out] }
  let jsonStr := out.getD ""
  if w.data.Platform = AppAndroid then
    let input := "POST" ++ cfg.Host ++ reqPath ++ jsonStr ++ cfg.AndroidAppMasterSecret
    ({ w with trace := w.trace ++ [.hashed input] },
      cfg.Host ++ reqPath ++ "?sign=" ++ Md5 lib input)
  else if w.data.Platform = AppIOS then
    let input := "POST" ++ cfg.Host ++ reqPath ++ jsonStr ++ cfg.IOSAppMasterSecret
    ({ w with trace := w.trace ++ [.hashed input] },
      cfg.Host ++ reqPath ++ "?sign=" ++ Md5 lib input)
  else
    (w, cfg.Host ++ reqPath ++ "?sign=" ++ "")

/-- Method `Data.Send`. -/
def Data.Send (lib : Lib) (w : World) (url : String) : Outcome :=
  match lib.newRequest "POST" url with
  | some err => .returned none (some err) w
  | none =>
    let req : Request :=
      { Method := "POST", URL := url, Body := w.data.dataBytes.getD "",
        ContentType := "application/json" }
    let w : World := { w with trace := w.trace ++ [.posted req] }
    match lib.roundTrip req with
    | .error err => .returned none (some err) w
    | .ok resp =>
      match resp.Body with
      | .error err => .returned none (some err) w
      | .ok body =>
        match lib.unmarshal body with
        | .error err =>
          if resp.StatusCode ≠ 200 then
            .returned none (some (.api (newAPIError ("JSON parse error, HTTP " ++ resp.Status)))) w
          else .returned none (some err) w
        | .ok result =>
          if result.Code ≠ "SUCCESS" then
            match marshalResult result.Data with
            | none => .returned none (some (.api (newAPIError "unexpected response content"))) w
            | some data => .returned none (some (.api (newAPIError data))) w
          else .returned result.Data none w

/-- The checks `Push` makes on an `AndroidBody`: the message of the panic,
or `none` when the body passes. -/
def checkBody (v : AndroidBody) : Option String :=
  if v.DisplayType ≠ "message" ∧ v.DisplayType ≠ "notification" then
    some "invalid display_type field"
  else if v.DisplayType = "message" ∨
      (v.DisplayType = "notification" ∧ v.AfterOpen = "go_custom") then
    match v.Custom with
    | .str c => if goLen c = 0 then some "missing custom field" else none
    | .object c => if c.length = 0 then some "missing custom field" else none
    | .nilObject => some "missing custom field"
    | _ => some "invalid custom field"
  else none

/-- Go map assignment `m[key] = val`. -/
def mapSet (m : IOSPayload) (key : String) (val : GoValue) : IOSPayload :=
  match m with
  | [] => [(key, val)]
  | (k, v) :: rest => if k = key then (key, val) :: rest else (k, v) :: mapSet rest key val

/-- Go map lookup `m[key]`, with whether the key is there. -/
def mapGet (m : IOSPayload) (key : String) : Option GoValue :=
  match m with
  | [] => none
  | (k, v) :: rest => if k = key then some v else mapGet rest key

/-- The payload part of `Push`: the envelope with its payload stored, or the
message of the panic. -/
def Data.pushPayload (data : Data) (body : BodyArg) (aps : GoValue) (extras : StrMap) :
    Except String Data :=
  if data.Platform = AppAndroid then
    let payload : AndroidPayload := {}
    let checked : Except String AndroidPayload :=
      match body with
      | .androidBody v =>
        match checkBody v with
        | some msg => .error msg
        | none => .ok { payload with DisplayType := v.DisplayType, Body := v }
      | .other _ => .ok payload
    match checked with
    | .error msg => .error msg
    | .ok payload =>
      let payload := if extras.len > 0 then { payload with Extra := extras } else payload
      .ok { data with Payload := .android payload }
  else if data.Platform = AppIOS then
    let payload : IOSPayload := []
    let payload := mapSet payload "aps" aps
    let payload :=
      if extras.len > 0 then
        (extras.getD []).foldl (fun m kv => mapSet m kv.1 (.str kv.2)) payload
      else payload
    .ok { data with Payload := .ios payload }
  else .ok data

/-- Method `Data.Push`. -/
def Data.Push (lib : Lib) (cfg : Config) (w : World) (body : BodyArg) (aps : GoValue)
    (policy : PolicyArg) (extras : StrMap) : Outcome :=
  match w.data.pushPayload body aps extras with
  | .error msg => .panicked msg w
  | .ok data =>
    let data :=
      match policy with
      | .policy v => data.SetPolicy v
      | .other _ => data
    let signed := Data.Sign lib cfg { w with data := data } cfg.PostPath
    Data.Send lib signed.1 signed.2

/-- Method `Data.Status`. -/
def Data.Status (lib : Lib) (cfg : Config) (w : World) : Outcome :=
  let signed := Data.Sign lib cfg w cfg.StatusPath
  Data.Send lib signed.1 signed.2

/-- Method `Data.Cancel`. -/
def Data.Cancel (lib : Lib) (cfg : Config) (w : World) : Outcome :=
  let signed := Data.Sign lib cfg w cfg.CancelPath
  Data.Send lib signed.1 signed.2

/-- Method `Data.Upload`. -/
def Data.Upload (lib : Lib) (cfg : Config) (w : World) : Outcome :=
  let signed := Data.Sign lib cfg w cfg.UploadPath
  Data.Send lib signed.1 signed.2

/-! ## Reading outcomes, and a library for concrete runs -/

/-- The envelope and steps an outcome carries. -/
def Outcome.world : Outcome → World
  | .panicked _ w => w
  | .returned _ _ w => w

/-- Whether the call ended by a panic. -/
def Outcome.isPanic : Outcome → Bool
  | .panicked _ _ => true
  | .returned _ _ _ => false

/-- Whether a step is a call of `json.Marshal` on the envelope. -/
def Event.isMarshaled : Event → Bool
  | .marshaled _ => true
  | _ => false

/-- A decoder for concrete runs.  It knows the two response bodies of the
specification and reports every other body as unparsable. -/
def sampleUnmarshal (body : String) : Except GoError response :=
  if body = "\x7b\"ret\":\"SUCCESS\",\"data\":\x7b\"msg_id\":\"123\"\x7d\x7d" then
    .ok { Code := "SUCCESS", Data := some [("msg_id", "123")] }
  else if body = "\x7b\"ret\":\"FAIL\",\"data\":\x7b\"errMsg\":\"bad appkey\"\x7d\x7d" then
    .ok { Code := "FAIL", Data := some [("errMsg", "bad appkey")] }
  else .error (.library "invalid character in JSON input")

/-- A library for concrete runs: every URL is accepted, the server answers
every request with `resp`, bodies are decoded by `sampleUnmarshal`, and the
digest of a text is written symbolically, as `md5(text)`. -/
def sampleLib (resp : Response) : Lib where
  md5 := fun s => "md5(" ++ s ++ ")"
  newRequest := fun _ _ => none
  roundTrip := fun _ => .ok resp
  unmarshal := sampleUnmarshal

/-- The server answer `200 OK` with the given body. -/
def okResponse (body : String) : Response :=
  { StatusCode := 200, Status := "200 OK", Body := .ok body }

/-- The steps one outbound call adds, from `before` to `after`: the envelope
is passed to `json.Marshal` exactly once, the result is what `Sign` cached on
the envelope, every digest is taken over `POST`, the host, the path, those
bytes and the master secret of the platform (and for an Android or iOS
envelope that digest is taken), and every request handed to the HTTP client
has those bytes as its body. -/
def SignedOnce (cfg : Config) (reqPath : String) (before after : World) : Prop :=
  ∃ evs : List Event,
    after.trace = before.trace ++ evs ∧
    evs.countP Event.isMarshaled = 1 ∧
    (∀ out, Event.marshaled out ∈ evs →
      out = marshalData after.data ∧ after.data.dataBytes = out) ∧
    (∀ input, Event.hashed input ∈ evs →
      (after.data.Platform = AppAndroid ∧
        input = "POST" ++ cfg.Host ++ reqPath ++ after.data.dataBytes.getD "" ++
          cfg.AndroidAppMasterSecret) ∨
      (after.data.Platform = AppIOS ∧
        input = "POST" ++ cfg.Host ++ reqPath ++ after.data.dataBytes.getD "" ++
          cfg.IOSAppMasterSecret)) ∧
    (after.data.Platform = AppAndroid →
      Event.hashed ("POST" ++ cfg.Host ++ reqPath ++ after.data.dataBytes.getD "" ++
        cfg.AndroidAppMasterSecret) ∈ evs) ∧
    (after.data.Platform = AppIOS →
      Event.hashed ("POST" ++ cfg.Host ++ reqPath ++ after.data.dataBytes.getD "" ++
        cfg.IOSAppMasterSecret) ∈ evs) ∧
    (∀ req, Event.posted req ∈ evs → req.Body = after.data.dataBytes.getD "")

/-- The steps `Sign` adds for the digest, by platform. -/
def signSteps (cfg : Config) (d : Data) (p : String) : List Event :=
  if d.Platform = AppAndroid then
    [.hashed ("POST" ++ cfg.Host ++ p ++ (marshalData d).getD "" ++ cfg.AndroidAppMasterSecret)]
  else if d.Platform = AppIOS then
    [.hashed ("POST" ++ cfg.Host ++ p ++ (marshalData d).getD "" ++ cfg.IOSAppMasterSecret)]
  else []

/-- A pointer to an `AndroidBody` held in an `interface{}`: a value of another
dynamic type than `AndroidBody`, written by `json.Marshal` as the struct is. -/
def AndroidBody.toPointer (b : AndroidBody) : GoValue :=
  .foreign (b.toJSON.map JSON.render)

/-! ## Lemmas on the functions -/

theorem goLen_eq_zero_iff (s : String) : goLen s = 0 ↔ s = "" := by
  cases s with
  | mk cs =>
    cases cs with
    | nil => simp [goLen, String.utf8ByteSize, String.utf8ByteSize.go]
    | cons c cs =>
      have hc : 0 < c.utf8Size := Char.utf8Size_pos c
      simp only [goLen, String.utf8ByteSize, String.utf8ByteSize.go]
      constructor
      · intro h; omega
      · intro h; exact absurd (congrArg String.data h) (by simp)

theorem send_not_panic (lib : Lib) (w : World) (url : String) :
    (Data.Send lib w url).isPanic = false := by
  simp only [Data.Send]
  repeat' split
  all_goals rfl

theorem send_world (lib : Lib) (w : World) (url : String) :
    (Data.Send lib w url).world = w ∨
      (Data.Send lib w url).world =
        { w with trace := w.trace ++
            [.posted ⟨"POST", url, w.data.dataBytes.getD "", "application/json"⟩] } := by
  simp only [Data.Send]
  repeat' split
  all_goals first | exact Or.inl rfl | exact Or.inr rfl

theorem send_data (lib : Lib) (w : World) (url : String) :
    (Data.Send lib w url).world.data = w.data := by
  rcases send_world lib w url with h | h <;> rw [h]

theorem outcome_of_not_panic (o : Outcome) (h : o.isPanic = false) :
    ∃ r e, o = .returned r e o.world := by
  cases o with
  | panicked m w => simp [Outcome.isPanic] at h
  | returned r e w => exact ⟨r, e, rfl⟩

theorem sign_data (lib : Lib) (cfg : Config) (w : World) (p : String) :
    (Data.Sign lib cfg w p).1.data = { w.data with dataBytes := marshalData w.data } := by
  simp only [Data.Sign]
  repeat' split
  all_goals rfl

theorem sign_trace (lib : Lib) (cfg : Config) (w : World) (p : String) :
    (Data.Sign lib cfg w p).1.trace =
      w.trace ++ [.marshaled (marshalData w.data)] ++ signSteps cfg w.data p := by
  simp only [Data.Sign, signSteps]
  by_cases h1 : w.data.Platform = AppAndroid
  · simp [h1]
  · by_cases h2 : w.data.Platform = AppIOS
    · have h3 : ¬ (AppIOS = AppAndroid) := by decide
      simp [h2, h3]
    · simp [h1, h2]

/-- Once the payload part has passed, `Push` returns, and what it leaves on
the envelope is the payload that part stored. -/
theorem push_of_payload (lib : Lib) (cfg : Config) (w : World) (body : BodyArg) (aps : GoValue)
    (policy : PolicyArg) (extras : StrMap) (d : Data)
    (h : w.data.pushPayload body aps extras = .ok d) :
    ∃ r e w', Data.Push lib cfg w body aps policy extras = .returned r e w' ∧
      w'.data.Payload = d.Payload := by
  have hnp : (Data.Push lib cfg w body aps policy extras).isPanic = false := by
    simp only [Data.Push, h]
    exact send_not_panic _ _ _
  obtain ⟨r, e, hre⟩ := outcome_of_not_panic _ hnp
  refine ⟨r, e, _, hre, ?_⟩
  simp only [Data.Push, h]
  rw [send_data, sign_data]
  cases policy <;> rfl

theorem mapGet_mapSet (m : IOSPayload) (k k' : String) (v : GoValue) :
    mapGet (mapSet m k v) k' = if k = k' then some v else mapGet m k' := by
  induction m with
  | nil => simp [mapSet, mapGet]
  | cons x xs ih =>
    obtain ⟨a, b⟩ := x
    by_cases hak : a = k
    · subst hak
      by_cases h : a = k' <;> simp [mapSet, mapGet, h]
    · by_cases h : k = k'
      · subst h
        simp [mapSet, mapGet, hak, ih]
      · simp [mapSet, mapGet, hak, ih, h]

theorem foldl_get_of_not_mem (kvs : List (String × String)) (m : IOSPayload) (k : String)
    (h : k ∉ kvs.map Prod.fst) :
    mapGet (kvs.foldl (fun m kv => mapSet m kv.1 (.str kv.2)) m) k = mapGet m k := by
  induction kvs generalizing m with
  | nil => rfl
  | cons x xs ih =>
    simp only [List.map_cons, List.mem_cons, not_or] at h
    simp only [List.foldl_cons]
    rw [ih _ h.2, mapGet_mapSet]
    simp [Ne.symm h.1]

theorem foldl_get_of_mem (kvs : List (String × String)) (m : IOSPayload) (k v : String)
    (hnd : (kvs.map Prod.fst).Nodup) (h : (k, v) ∈ kvs) :
    mapGet (kvs.foldl (fun m kv => mapSet m kv.1 (.str kv.2)) m) k = some (.str v) := by
  induction kvs generalizing m with
  | nil => simp at h
  | cons x xs ih =>
    simp only [List.map_cons, List.nodup_cons] at hnd
    simp only [List.foldl_cons]
    rcases List.mem_cons.1 h with h | h
    · subst h
      rw [foldl_get_of_not_mem _ _ _ hnd.1, mapGet_mapSet]
      simp
    · exact ih _ hnd.2 h

/-- With a valid display type, a body passes the checks exactly when
`Custom` is not required or is a non-empty string or non-empty object. -/
theorem checkBody_eq_none_iff (v : AndroidBody)
    (hdt : v.DisplayType = "message" ∨ v.DisplayType = "notification") :
    checkBody v = none ↔
      ¬ (v.DisplayType = "message" ∨
          (v.DisplayType = "notification" ∧ v.AfterOpen = "go_custom")) ∨
        ((∃ s, v.Custom = .str s ∧ s ≠ "") ∨ (∃ m, v.Custom = .object m ∧ m ≠ [])) := by
  have h0 : ¬ (v.DisplayType ≠ "message" ∧ v.DisplayType ≠ "notification") := by
    rcases hdt with h | h <;> simp [h]
  by_cases hreq : v.DisplayType = "message" ∨
      (v.DisplayType = "notification" ∧ v.AfterOpen = "go_custom")
  · cases hc : v.Custom <;>
      simp [checkBody, h0, hreq, hc, goLen_eq_zero_iff]
  · simp [checkBody, h0, hreq]

/-- A body that fails the checks makes `Push` panic with the message of the
check, the envelope and the steps left as they were. -/
theorem push_panic_of_check (lib : Lib) (cfg : Config) (w : World) (v : AndroidBody)
    (aps : GoValue) (policy : PolicyArg) (extras : StrMap) (msg : String)
    (hpf : w.data.Platform = AppAndroid) (hc : checkBody v = some msg) :
    Data.Push lib cfg w (.androidBody v) aps policy extras = .panicked msg w := by
  simp [Data.Push, Data.pushPayload, hpf, hc]

/-- A body that passes the checks is wrapped and stored. -/
theorem pushPayload_android_ok (d : Data) (v : AndroidBody) (aps : GoValue) (extras : StrMap)
    (hpf : d.Platform = AppAndroid) (hc : checkBody v = none) :
    d.pushPayload (.androidBody v) aps extras =
      .ok { d with Payload := .android ⟨v.DisplayType, v, if extras.len > 0 then extras else none⟩ } := by
  by_cases hx : extras.len > 0 <;> simp [Data.pushPayload, hpf, hc, hx]

/-! ## Request builder: Android validation -/

/-- C1: on an Android envelope, a body of type `AndroidBody` whose
`DisplayType` is neither `message` nor `notification` makes `Push` panic with
`invalid display_type field`, and the envelope and the recorded steps are
exactly as before the call: no payload stored, no bytes cached, no digest
computed, no request handed to the HTTP client. -/
theorem push_invalid_display_type (lib : Lib) (cfg : Config) (w : World) (v : AndroidBody)
    (aps : GoValue) (policy : PolicyArg) (extras : StrMap)
    (hpf : w.data.Platform = AppAndroid)
    (hm : v.DisplayType ≠ "message") (hn : v.DisplayType ≠ "notification") :
    Data.Push lib cfg w (.androidBody v) aps policy extras
      = .panicked "invalid display_type field" w := by
  simp [Data.Push, Data.pushPayload, checkBody, hpf, hm, hn]

/-- C1 at a concrete input: a fresh Android envelope and display type `alert`. -/
theorem push_invalid_display_type_witness :
    Data.Push (sampleLib (okResponse "")) {} ⟨NewData {} AppAndroid, []⟩
        (.androidBody { DisplayType := "alert", Custom := .str "hi" }) .nil (.other .nil) none
      = .panicked "invalid display_type field" ⟨NewData {} AppAndroid, []⟩ :=
  push_invalid_display_type _ _ _ _ _ _ _ (by decide) (by decide) (by decide)

/-- C2: on an Android envelope and a body with a valid `DisplayType`, `Push`
panics exactly when `Custom` is required (display type `message`, or
`notification` with `AfterOpen` equal to `go_custom`) and `Custom` is neither a
non-empty string nor a non-empty object.  So, when required, the empty string,
the empty object, the absent value and every array are rejected (with
`missing custom field` or `invalid custom field`, nothing stored or sent); and
for `notification` with another `AfterOpen` the call returns whatever `Custom`
is. -/
theorem push_custom_check (lib : Lib) (cfg : Config) (w : World) (v : AndroidBody)
    (aps : GoValue) (policy : PolicyArg) (extras : StrMap)
    (hpf : w.data.Platform = AppAndroid)
    (hdt : v.DisplayType = "message" ∨ v.DisplayType = "notification") :
    ((∃ msg, Data.Push lib cfg w (.androidBody v) aps policy extras = .panicked msg w) ↔
      (v.DisplayType = "message" ∨
          (v.DisplayType = "notification" ∧ v.AfterOpen = "go_custom")) ∧
        ¬ ((∃ s, v.Custom = .str s ∧ s ≠ "") ∨ (∃ m, v.Custom = .object m ∧ m ≠ []))) ∧
    ((v.DisplayType = "message" ∨
          (v.DisplayType = "notification" ∧ v.AfterOpen = "go_custom")) →
      (v.Custom = .str "" ∨ v.Custom = .object [] ∨ v.Custom = .nil ∨
          ∃ xs, v.Custom = .array xs) →
      ∃ msg, (msg = "missing custom field" ∨ msg = "invalid custom field") ∧
        Data.Push lib cfg w (.androidBody v) aps policy extras = .panicked msg w) ∧
    (v.DisplayType = "notification" → v.AfterOpen ≠ "go_custom" →
      ∃ result err w',
        Data.Push lib cfg w (.androidBody v) aps policy extras = .returned result err w') := by
  have h0 : ¬ (v.DisplayType ≠ "message" ∧ v.DisplayType ≠ "notification") := by
    rcases hdt with h | h <;> simp [h]
  refine ⟨?_, ?_, ?_⟩
  · rw [← not_iff_not, not_and_or, not_not, ← checkBody_eq_none_iff v hdt]
    constructor
    · intro hnp
      cases hc : checkBody v with
      | none => rfl
      | some msg => exact absurd ⟨msg, push_panic_of_check lib cfg w v aps policy extras msg hpf hc⟩ hnp
    · rintro hc ⟨msg, hp⟩
      obtain ⟨r, e, w', hret, -⟩ := push_of_payload lib cfg w (.androidBody v) aps policy extras _
        (pushPayload_android_ok w.data v aps extras hpf hc)
      rw [hret] at hp
      cases hp
  · intro hreq hcus
    rcases hcus with hc | hc | hc | ⟨xs, hc⟩
    · exact ⟨"missing custom field", Or.inl rfl,
        push_panic_of_check lib cfg w v aps policy extras _ hpf
          (by simp [checkBody, h0, hreq, hc, goLen_eq_zero_iff])⟩
    · exact ⟨"missing custom field", Or.inl rfl,
        push_panic_of_check lib cfg w v aps policy extras _ hpf
          (by simp [checkBody, h0, hreq, hc])⟩
    · exact ⟨"invalid custom field", Or.inr rfl,
        push_panic_of_check lib cfg w v aps policy extras _ hpf
          (by simp [checkBody, h0, hreq, hc])⟩
    · exact ⟨"invalid custom field", Or.inr rfl,
        push_panic_of_check lib cfg w v aps policy extras _ hpf
          (by simp [checkBody, h0, hreq, hc])⟩
  · intro hn hao
    have hc : checkBody v = none := by
      rw [checkBody_eq_none_iff v hdt]
      left
      simp [hn, hao]
    obtain ⟨r, e, w', hret, -⟩ := push_of_payload lib cfg w (.androidBody v) aps policy extras _
      (pushPayload_android_ok w.data v aps extras hpf hc)
    exact ⟨r, e, w', hret⟩

/-- C2 at a concrete input: display type `message` with an array as `Custom`
is rejected with `invalid custom field`. -/
theorem push_custom_check_witness :
    ∃ msg, (msg = "missing custom field" ∨ msg = "invalid custom field") ∧
      Data.Push (sampleLib (okResponse "")) {} ⟨NewData {} AppAndroid, []⟩
          (.androidBody { DisplayType := "message", Custom := .array [.str "a"] })
          .nil (.other .nil) none
        = .panicked msg ⟨NewData {} AppAndroid, []⟩ :=
  (push_custom_check (sampleLib (okResponse "")) {} ⟨NewData {} AppAndroid, []⟩
      { DisplayType := "message", Custom := .array [.str "a"] } .nil (.other .nil) none
      (by decide) (Or.inl rfl)).2.1 (Or.inl rfl) (Or.inr (Or.inr (Or.inr ⟨_, rfl⟩)))

/-- C7: on an Android envelope, for a body that passes the checks, `Push`
returns and the payload it leaves on the envelope is an `AndroidPayload` with
the display type of the body, the body itself unchanged, and `Extra` equal to
`extras` when that has entries and nil when it is empty or nil. -/
theorem push_android_payload (lib : Lib) (cfg : Config) (w : World) (v : AndroidBody)
    (aps : GoValue) (policy : PolicyArg) (extras : StrMap)
    (hpf : w.data.Platform = AppAndroid) (hv : checkBody v = none) :
    ∃ result err w' p,
      Data.Push lib cfg w (.androidBody v) aps policy extras = .returned result err w' ∧
      w'.data.Payload = .android p ∧ p.DisplayType = v.DisplayType ∧ p.Body = v ∧
      (0 < extras.len → p.Extra = extras) ∧ (extras.len = 0 → p.Extra = none) := by
  obtain ⟨r, e, w', hret, hp⟩ := push_of_payload lib cfg w (.androidBody v) aps policy extras _
    (pushPayload_android_ok w.data v aps extras hpf hv)
  refine ⟨r, e, w', _, hret, hp, rfl, rfl, ?_, ?_⟩
  · intro h; simp [h]
  · intro h; simp [h]

/-- C7 at a concrete input: a `message` body with custom text `hi` and one
extra. -/
theorem push_android_payload_witness :
    ∃ result err w' p,
      Data.Push (sampleLib (okResponse "")) {} ⟨NewData {} AppAndroid, []⟩
          (.androidBody { DisplayType := "message", Custom := .str "hi" }) .nil (.other .nil)
          (some [("k", "v")]) = .returned result err w' ∧
      w'.data.Payload = .android p ∧ p.DisplayType = "message" ∧
      p.Body = { DisplayType := "message", Custom := .str "hi" } ∧
      (0 < StrMap.len (some [("k", "v")]) → p.Extra = some [("k", "v")]) ∧
      (StrMap.len (some [("k", "v")]) = 0 → p.Extra = none) :=
  push_android_payload (sampleLib (okResponse "")) {} ⟨NewData {} AppAndroid, []⟩
    { DisplayType := "message", Custom := .str "hi" } .nil (.other .nil) (some [("k", "v")])
    (by decide) (by decide)

/-! ## Request builder: iOS payload -/

/-- On an iOS envelope the payload part never fails: it stores the map made
of the `aps` entry with the extras assigned over it one by one. -/
theorem pushPayload_ios (d : Data) (body : BodyArg) (aps : GoValue) (extras : StrMap)
    (hpf : d.Platform = AppIOS) :
    d.pushPayload body aps extras =
      .ok { d with
        Payload := PayloadValue.ios
          ((extras.getD []).foldl (fun m kv => mapSet m kv.1 (.str kv.2)) [("aps", aps)]) } := by
  have h3 : ¬ (AppIOS = AppAndroid) := by decide
  cases extras with
  | none => simp [Data.pushPayload, hpf, h3, StrMap.len, mapSet]
  | some kvs =>
    cases kvs with
    | nil => simp [Data.pushPayload, hpf, h3, StrMap.len, mapSet]
    | cons x xs => simp [Data.pushPayload, hpf, h3, StrMap.len, mapSet]

/-- C3, as the code has it: on an iOS envelope `Push` returns and leaves an
`IOSPayload` on the envelope in which every entry of `extras` is a top-level
key with its string value, whose `aps` entry is the caller-supplied value
whenever `extras` has no key `aps`, and which has no other keys. -/
theorem push_ios_payload (lib : Lib) (cfg : Config) (w : World) (body : BodyArg)
    (aps : GoValue) (policy : PolicyArg) (extras : StrMap)
    (hpf : w.data.Platform = AppIOS) (hwf : extras.WF) :
    ∃ result err w' p,
      Data.Push lib cfg w body aps policy extras = .returned result err w' ∧
      w'.data.Payload = .ios p ∧
      ("aps" ∉ (extras.getD []).map Prod.fst → mapGet p "aps" = some aps) ∧
      (∀ k v, (k, v) ∈ extras.getD [] → mapGet p k = some (.str v)) ∧
      (∀ k, (mapGet p k).isSome → k = "aps" ∨ k ∈ (extras.getD []).map Prod.fst) := by
  obtain ⟨r, e, w', hret, hp⟩ := push_of_payload lib cfg w body aps policy extras _
    (pushPayload_ios w.data body aps extras hpf)
  have hnd : ((extras.getD []).map Prod.fst).Nodup := by
    cases extras with
    | none => simp
    | some kvs => simpa [StrMap.WF] using hwf
  refine ⟨r, e, w', _, hret, hp, ?_, ?_, ?_⟩
  · intro h
    rw [foldl_get_of_not_mem _ _ _ h]
    simp [mapGet]
  · intro k v h
    exact foldl_get_of_mem _ _ k v hnd h
  · intro k hk
    by_cases hmem : k ∈ (extras.getD []).map Prod.fst
    · exact Or.inr hmem
    · rw [foldl_get_of_not_mem _ _ _ hmem] at hk
      by_cases hka : "aps" = k
      · exact Or.inl hka.symm
      · simp [mapGet, hka] at hk

/-- C3 at a concrete input: an `IOSAps` value and one extra under the key
`k`. -/
theorem push_ios_payload_witness :
    ∃ result err w' p,
      Data.Push (sampleLib (okResponse "")) {} ⟨NewData {} AppIOS, []⟩ (.other .nil)
          (IOSAps.toValue { Alert := .str "hi", Badge := 1 }) (.other .nil) (some [("k", "v")])
        = .returned result err w' ∧
      w'.data.Payload = .ios p ∧
      ("aps" ∉ [("k", "v")].map Prod.fst →
        mapGet p "aps" = some (IOSAps.toValue { Alert := .str "hi", Badge := 1 })) ∧
      (∀ k v, (k, v) ∈ [("k", "v")] → mapGet p k = some (.str v)) ∧
      (∀ k, (mapGet p k).isSome → k = "aps" ∨ k ∈ [("k", "v")].map Prod.fst) :=
  push_ios_payload (sampleLib (okResponse "")) {} ⟨NewData {} AppIOS, []⟩ (.other .nil)
    (IOSAps.toValue { Alert := .str "hi", Badge := 1 }) (.other .nil) (some [("k", "v")]) (by decide)
    (by simp [StrMap.WF])

/-- C3 as stated fails when `extras` has the key `aps`: the payload `Push`
stores then holds the string of `extras` under `aps`, not the caller-supplied
`IOSAps` value. -/
theorem push_ios_extras_replace_aps :
    ∃ p,
      (Data.Push (sampleLib (okResponse "")) {} ⟨NewData {} AppIOS, []⟩ (.other .nil)
          (IOSAps.toValue { Alert := .str "hi", Badge := 1 }) (.other .nil)
          (some [("aps", "x")])).world.data.Payload = .ios p ∧
      mapGet p "aps" = some (.str "x") ∧
      mapGet p "aps" ≠ some (IOSAps.toValue { Alert := .str "hi", Badge := 1 }) := by
  refine ⟨[("aps", .str "x")], rfl, rfl, ?_⟩
  simp [mapGet, IOSAps.toValue]

/-! ## Signer -/

/-- C5: for an Android envelope `Sign` returns `Host + path + "?sign=" +
Md5("POST" + Host + path + bytes + AndroidAppMasterSecret)`, and for an iOS
envelope the same with `IOSAppMasterSecret`, where `bytes` is what
`json.Marshal` wrote for the envelope (nothing, when it reported an error). -/
theorem sign_url (lib : Lib) (cfg : Config) (w : World) (reqPath : String) :
    (w.data.Platform = AppAndroid →
      (Data.Sign lib cfg w reqPath).2 =
        cfg.Host ++ reqPath ++ "?sign=" ++
          Md5 lib ("POST" ++ cfg.Host ++ reqPath ++ (marshalData w.data).getD "" ++
            cfg.AndroidAppMasterSecret)) ∧
    (w.data.Platform = AppIOS →
      (Data.Sign lib cfg w reqPath).2 =
        cfg.Host ++ reqPath ++ "?sign=" ++
          Md5 lib ("POST" ++ cfg.Host ++ reqPath ++ (marshalData w.data).getD "" ++
            cfg.IOSAppMasterSecret)) := by
  constructor
  · intro h
    simp [Data.Sign, h]
  · intro h
    have h3 : ¬ (AppIOS = AppAndroid) := by decide
    simp [Data.Sign, h, h3]

/-- C5 at a concrete input: a fresh Android envelope with app key `k`,
master secret `s` and the send path (the digest written symbolically). -/
theorem sign_url_witness :
    (Data.Sign (sampleLib (okResponse ""))
        { AndroidAppKey := "k", AndroidAppMasterSecret := "s" }
        ⟨NewData { AndroidAppKey := "k", AndroidAppMasterSecret := "s" } AppAndroid, []⟩
        "/api/send").2 =
      "http://msg.umeng.com/api/send?sign=md5(POSThttp://msg.umeng.com/api/send" ++
        "\x7b\"appkey\":\"k\",\"policy\":\x7b\x7d,\"channel_properties\":" ++
        "\x7b\"huawei_channel_importance\":\"\",\"huawei_channel_category\":\"\"\x7d\x7ds)" :=
  (sign_url (sampleLib (okResponse ""))
    { AndroidAppKey := "k", AndroidAppMasterSecret := "s" }
    ⟨NewData { AndroidAppKey := "k", AndroidAppMasterSecret := "s" } AppAndroid, []⟩
    "/api/send").1 (by decide)

theorem signSteps_not_marshaled (cfg : Config) (d : Data) (p : String) :
    (signSteps cfg d p).countP Event.isMarshaled = 0 := by
  unfold signSteps
  split_ifs <;> simp [Event.isMarshaled]

theorem mem_signSteps (cfg : Config) (d : Data) (p : String) (input : String) :
    Event.hashed input ∈ signSteps cfg d p ↔
      (d.Platform = AppAndroid ∧
        input = "POST" ++ cfg.Host ++ p ++ (marshalData d).getD "" ++
          cfg.AndroidAppMasterSecret) ∨
      (d.Platform = AppIOS ∧
        input = "POST" ++ cfg.Host ++ p ++ (marshalData d).getD "" ++
          cfg.IOSAppMasterSecret) := by
  have h3 : ¬ (AppIOS = AppAndroid) := by decide
  have h4 : ¬ (AppAndroid = AppIOS) := by decide
  unfold signSteps
  by_cases h1 : d.Platform = AppAndroid
  · simp [h1, h4]
  · by_cases h2 : d.Platform = AppIOS
    · simp [h2, h3]
    · simp [h1, h2]

theorem other_not_mem_signSteps (cfg : Config) (d : Data) (p : String) :
    (∀ out, Event.marshaled out ∉ signSteps cfg d p) ∧
      (∀ req, Event.posted req ∉ signSteps cfg d p) := by
  unfold signSteps
  constructor <;> intro x <;> split_ifs <;> simp

/-- The steps of `Sign` followed by `Send` on its URL: one serialization,
signed and sent as cached. -/
theorem sign_send_once (lib : Lib) (cfg : Config) (w : World) (p : String) :
    SignedOnce cfg p w
      (Data.Send lib (Data.Sign lib cfg w p).1 (Data.Sign lib cfg w p).2).world := by
  have hd := sign_data lib cfg w p
  have ht := sign_trace lib cfg w p
  have hm : marshalData { w.data with dataBytes := marshalData w.data } = marshalData w.data := rfl
  have hno := other_not_mem_signSteps cfg w.data p
  rcases send_world lib (Data.Sign lib cfg w p).1 (Data.Sign lib cfg w p).2 with h | h
  · refine ⟨[.marshaled (marshalData w.data)] ++ signSteps cfg w.data p,
      ?_, ?_, ?_, ?_, ?_, ?_, ?_⟩
    · rw [h, ht, List.append_assoc]
    · simp [List.countP_append, signSteps_not_marshaled, Event.isMarshaled]
    · intro out ho
      rw [h, hd, hm]
      simp [hno.1] at ho
      simp [ho]
    · intro input hi
      rw [h, hd]
      simp [mem_signSteps] at hi
      exact hi
    · intro hp
      rw [h, hd] at hp ⊢
      simp [mem_signSteps]
      exact Or.inl hp
    · intro hp
      rw [h, hd] at hp ⊢
      simp [mem_signSteps]
      exact Or.inr hp
    · intro req hr
      simp [hno.2] at hr
  · refine ⟨[.marshaled (marshalData w.data)] ++ signSteps cfg w.data p ++
      [.posted ⟨"POST", (Data.Sign lib cfg w p).2,
        (Data.Sign lib cfg w p).1.data.dataBytes.getD "", "application/json"⟩],
      ?_, ?_, ?_, ?_, ?_, ?_, ?_⟩
    · rw [h]
      simp only [ht, List.append_assoc]
    · simp [List.countP_append, signSteps_not_marshaled, Event.isMarshaled]
    · intro out ho
      rw [h]
      simp only [hd, hm]
      simp [hno.1] at ho
      simp [ho]
    · intro input hi
      rw [h]
      simp only [hd]
      simp [mem_signSteps] at hi
      exact hi
    · intro hp
      rw [h] at hp ⊢
      simp only [hd] at hp ⊢
      simp [mem_signSteps]
      exact Or.inl hp
    · intro hp
      rw [h] at hp ⊢
      simp only [hd] at hp ⊢
      simp [mem_signSteps]
      exact Or.inr hp
    · intro req hr
      rw [h]
      simp only [hd]
      simp [hno.2] at hr
      simp [hr, hd]

/-- C6: `Status`, `Cancel` and `Upload` always, and `Push` whenever it does
not panic, return after passing the envelope to `json.Marshal` exactly once;
the bytes are cached on the envelope, every digest is taken over a text
containing exactly those bytes, and every request handed to the HTTP client
has exactly those bytes as its body. -/
theorem calls_serialize_once (lib : Lib) (cfg : Config) (w : World) :
    (∃ r e w', Data.Status lib cfg w = .returned r e w' ∧
      SignedOnce cfg cfg.StatusPath w w') ∧
    (∃ r e w', Data.Cancel lib cfg w = .returned r e w' ∧
      SignedOnce cfg cfg.CancelPath w w') ∧
    (∃ r e w', Data.Upload lib cfg w = .returned r e w' ∧
      SignedOnce cfg cfg.UploadPath w w') ∧
    (∀ body aps policy extras,
      (Data.Push lib cfg w body aps policy extras).isPanic = false →
      ∃ r e w', Data.Push lib cfg w body aps policy extras = .returned r e w' ∧
        SignedOnce cfg cfg.PostPath w w') := by
  refine ⟨?_, ?_, ?_, ?_⟩
  · obtain ⟨r, e, h⟩ := outcome_of_not_panic (Data.Status lib cfg w)
      (send_not_panic _ _ _)
    exact ⟨r, e, _, h, sign_send_once lib cfg w cfg.StatusPath⟩
  · obtain ⟨r, e, h⟩ := outcome_of_not_panic (Data.Cancel lib cfg w)
      (send_not_panic _ _ _)
    exact ⟨r, e, _, h, sign_send_once lib cfg w cfg.CancelPath⟩
  · obtain ⟨r, e, h⟩ := outcome_of_not_panic (Data.Upload lib cfg w)
      (send_not_panic _ _ _)
    exact ⟨r, e, _, h, sign_send_once lib cfg w cfg.UploadPath⟩
  · intro body aps policy extras hnp
    obtain ⟨r, e, h⟩ := outcome_of_not_panic _ hnp
    refine ⟨r, e, _, h, ?_⟩
    cases hp : w.data.pushPayload body aps extras with
    | error msg => simp [Data.Push, hp, Outcome.isPanic] at hnp
    | ok d =>
      clear h hnp
      simp only [Data.Push, hp]
      cases policy with
      | policy v => exact sign_send_once lib cfg { w with data := d.SetPolicy v } cfg.PostPath
      | other v => exact sign_send_once lib cfg { w with data := d } cfg.PostPath

/-- C6 at a concrete input: `Push` of a `message` body with custom text `hi`
on a fresh Android envelope. -/
theorem calls_serialize_once_witness :
    ∃ r e w',
      Data.Push (sampleLib (okResponse "")) {} ⟨NewData {} AppAndroid, []⟩
          (.androidBody { DisplayType := "message", Custom := .str "hi" }) .nil (.other .nil)
          none = .returned r e w' ∧
        SignedOnce {} "/api/send" ⟨NewData {} AppAndroid, []⟩ w' :=
  (calls_serialize_once (sampleLib (okResponse "")) {} ⟨NewData {} AppAndroid, []⟩).2.2.2
    (.androidBody { DisplayType := "message", Custom := .str "hi" }) .nil (.other .nil) none
    (by decide)

/-! ## Serialized form of the envelope -/

/-- C4, the code at the failing input: `Sign` on a fresh Android envelope with
app key `k`, no policy and no channel properties caches bytes that do hold
the keys `policy`, `channel_properties`, `huawei_channel_importance` and
`huawei_channel_category`. -/
theorem sign_fresh_envelope_bytes (lib : Lib) :
    (Data.Sign lib { AndroidAppKey := "k" }
        ⟨NewData { AndroidAppKey := "k" } AppAndroid, []⟩ "/api/status").1.data.dataBytes =
      some ("\x7b\"appkey\":\"k\",\"policy\":\x7b\x7d,\"channel_properties\":" ++
        "\x7b\"huawei_channel_importance\":\"\",\"huawei_channel_category\":\"\"\x7d\x7d") := by
  rw [sign_data]
  decide

/-- C10, the code at the failing input: a `ChannelProperties` with only
`XiaomiChannelId` set is written with that value under the key
`xiaomi_channAel_id`, and has no member `xiaomi_channel_id`. -/
theorem channel_properties_xiaomi_key (lib : Lib) :
    (ChannelProperties.toJSON { XiaomiChannelId := "c1" }).keys =
        ["xiaomi_channAel_id", "huawei_channel_importance", "huawei_channel_category"] ∧
    (ChannelProperties.toJSON { XiaomiChannelId := "c1" }).keys.contains "xiaomi_channel_id"
        = false ∧
    (Data.Sign lib { AndroidAppKey := "k" }
        ⟨{ NewData { AndroidAppKey := "k" } AppAndroid with
            ChannelProperties := { XiaomiChannelId := "c1" } }, []⟩
        "/api/send").1.data.dataBytes =
      some ("\x7b\"appkey\":\"k\",\"policy\":\x7b\x7d,\"channel_properties\":" ++
        "\x7b\"xiaomi_channAel_id\":\"c1\",\"huawei_channel_importance\":\"\"," ++
        "\"huawei_channel_category\":\"\"\x7d\x7d") := by
  refine ⟨by decide, by decide, ?_⟩
  rw [sign_data]
  decide

/-! ## Transport and response decoder -/

/-- C8: when the request goes through and the response body parses as
`response` value `r`, `Send` returns `r.Data` with no error exactly when
`r.Code` is `SUCCESS`; for any other code it returns a nil result and an
`APIError` whose message is `umeng: ` followed by the JSON text of `r.Data`. -/
theorem send_decoded_response (lib : Lib) (w : World) (url : String) (resp : Response)
    (body : String) (r : response)
    (hreq : lib.newRequest "POST" url = none)
    (hdo : lib.roundTrip ⟨"POST", url, w.data.dataBytes.getD "", "application/json"⟩
      = .ok resp)
    (hbody : resp.Body = .ok body)
    (hparse : lib.unmarshal body = .ok r) :
    ((∃ w', Data.Send lib w url = .returned r.Data none w') ↔ r.Code = "SUCCESS") ∧
    (r.Code ≠ "SUCCESS" →
      Data.Send lib w url =
        .returned none (some (.api ⟨"umeng: " ++ r.Data.toJSON.render⟩))
          { w with trace := w.trace ++
              [.posted ⟨"POST", url, w.data.dataBytes.getD "", "application/json"⟩] }) := by
  by_cases hc : r.Code = "SUCCESS"
  · refine ⟨⟨fun _ => hc, fun _ => ⟨{ w with trace := w.trace ++
      [.posted ⟨"POST", url, w.data.dataBytes.getD "", "application/json"⟩] }, ?_⟩⟩,
      fun h => absurd hc h⟩
    simp only [Data.Send, hreq, hdo, hbody, hparse]
    simp [hc]
  · have hs : Data.Send lib w url =
        .returned none (some (.api ⟨"umeng: " ++ r.Data.toJSON.render⟩))
          { w with trace := w.trace ++
              [.posted ⟨"POST", url, w.data.dataBytes.getD "", "application/json"⟩] } := by
      simp only [Data.Send, hreq, hdo, hbody, hparse]
      simp [hc, marshalResult, newAPIError]
    refine ⟨⟨?_, fun h => absurd h hc⟩, fun _ => hs⟩
    rintro ⟨w', hw⟩
    rw [hs] at hw
    simp at hw

/-- C8 at the two responses of the specification: `ret` equal to `FAIL`
with data `errMsg: bad appkey`, and `ret` equal to `SUCCESS` with data
`msg_id: 123`. -/
theorem send_decoded_response_witness :
    Data.Send
        (sampleLib (okResponse
          "\x7b\"ret\":\"FAIL\",\"data\":\x7b\"errMsg\":\"bad appkey\"\x7d\x7d"))
        ⟨NewData {} AppAndroid, []⟩ "http://msg.umeng.com/api/send?sign=0" =
      .returned none
        (some (.api ⟨"umeng: \x7b\"errMsg\":\"bad appkey\"\x7d"⟩))
        ⟨NewData {} AppAndroid,
          [.posted ⟨"POST", "http://msg.umeng.com/api/send?sign=0", "", "application/json"⟩]⟩ ∧
    ∃ w', Data.Send
        (sampleLib (okResponse
          "\x7b\"ret\":\"SUCCESS\",\"data\":\x7b\"msg_id\":\"123\"\x7d\x7d"))
        ⟨NewData {} AppAndroid, []⟩ "http://msg.umeng.com/api/send?sign=0" =
      .returned (some [("msg_id", "123")]) none w' :=
  ⟨(send_decoded_response
      (sampleLib (okResponse
        "\x7b\"ret\":\"FAIL\",\"data\":\x7b\"errMsg\":\"bad appkey\"\x7d\x7d"))
      ⟨NewData {} AppAndroid, []⟩ "http://msg.umeng.com/api/send?sign=0" _ _
      { Code := "FAIL", Data := some [("errMsg", "bad appkey")] } rfl rfl rfl rfl).2
      (by decide),
    (send_decoded_response
      (sampleLib (okResponse
        "\x7b\"ret\":\"SUCCESS\",\"data\":\x7b\"msg_id\":\"123\"\x7d\x7d"))
      ⟨NewData {} AppAndroid, []⟩ "http://msg.umeng.com/api/send?sign=0" _ _
      { Code := "SUCCESS", Data := some [("msg_id", "123")] } rfl rfl rfl rfl).1.2 rfl⟩

/-- C9: when the request goes through and the response body does not parse,
`Send` returns a nil result together with, for a status other than 200, an
`APIError` with message `umeng: JSON parse error, HTTP ` followed by the
status text, and for status 200 the error of the parser itself. -/
theorem send_unparsable_response (lib : Lib) (w : World) (url : String) (resp : Response)
    (body : String) (perr : GoError)
    (hreq : lib.newRequest "POST" url = none)
    (hdo : lib.roundTrip ⟨"POST", url, w.data.dataBytes.getD "", "application/json"⟩
      = .ok resp)
    (hbody : resp.Body = .ok body)
    (hparse : lib.unmarshal body = .error perr) :
    (resp.StatusCode ≠ 200 →
      Data.Send lib w url =
        .returned none (some (.api ⟨"umeng: JSON parse error, HTTP " ++ resp.Status⟩))
          { w with trace := w.trace ++
              [.posted ⟨"POST", url, w.data.dataBytes.getD "", "application/json"⟩] }) ∧
    (resp.StatusCode = 200 →
      Data.Send lib w url =
        .returned none (some perr)
          { w with trace := w.trace ++
              [.posted ⟨"POST", url, w.data.dataBytes.getD "", "application/json"⟩] }) := by
  constructor
  · intro hs
    have hmsg : "umeng: " ++ ("JSON parse error, HTTP " ++ resp.Status) =
        "umeng: JSON parse error, HTTP " ++ resp.Status := by
      rw [← String.append_assoc]
      rfl
    simp only [Data.Send, hreq, hdo, hbody, hparse]
    simp [hs, newAPIError, hmsg]
  · intro hs
    simp only [Data.Send, hreq, hdo, hbody, hparse]
    simp [hs]

/-- C9 at two concrete inputs: an HTML body with status 500, and the same
body with status 200. -/
theorem send_unparsable_response_witness :
    Data.Send (sampleLib ⟨500, "500 Internal Server Error", .ok "<html>"⟩)
        ⟨NewData {} AppAndroid, []⟩ "http://msg.umeng.com/api/send?sign=0" =
      .returned none
        (some (.api ⟨"umeng: JSON parse error, HTTP 500 Internal Server Error"⟩))
        ⟨NewData {} AppAndroid,
          [.posted ⟨"POST", "http://msg.umeng.com/api/send?sign=0", "", "application/json"⟩]⟩ ∧
    Data.Send (sampleLib (okResponse "<html>"))
        ⟨NewData {} AppAndroid, []⟩ "http://msg.umeng.com/api/send?sign=0" =
      .returned none
        (some (.library "invalid character in JSON input"))
        ⟨NewData {} AppAndroid,
          [.posted ⟨"POST", "http://msg.umeng.com/api/send?sign=0", "", "application/json"⟩]⟩ :=
  ⟨(send_unparsable_response (sampleLib ⟨500, "500 Internal Server Error", .ok "<html>"⟩)
      ⟨NewData {} AppAndroid, []⟩ "http://msg.umeng.com/api/send?sign=0" _ "<html>"
      (.library "invalid character in JSON input") rfl rfl rfl rfl).1 (by decide),
    (send_unparsable_response (sampleLib (okResponse "<html>"))
      ⟨NewData {} AppAndroid, []⟩ "http://msg.umeng.com/api/send?sign=0" _ "<html>"
      (.library "invalid character in JSON input") rfl rfl rfl rfl).2 rfl⟩

/-! ## Request builder: a body of another type -/

theorem send_world_of_request (lib : Lib) (w : World) (url : String)
    (h : lib.newRequest "POST" url = none) :
    (Data.Send lib w url).world =
      { w with trace := w.trace ++
          [.posted ⟨"POST", url, w.data.dataBytes.getD "", "application/json"⟩] } := by
  simp only [Data.Send, h]
  repeat' split
  all_goals rfl

theorem sign_snd_android (lib : Lib) (cfg : Config) (w : World) (p : String)
    (h : w.data.Platform = AppAndroid) :
    (Data.Sign lib cfg w p).2 =
      cfg.Host ++ p ++ "?sign=" ++
        Md5 lib ("POST" ++ cfg.Host ++ p ++ (marshalData w.data).getD "" ++
          cfg.AndroidAppMasterSecret) := by
  simp [Data.Sign, h]

/-- On an Android envelope, a body of a type other than `AndroidBody` is not
looked at: the payload stored is the zero `AndroidPayload`, with the extras. -/
theorem pushPayload_android_other (d : Data) (v aps : GoValue) (extras : StrMap)
    (hpf : d.Platform = AppAndroid) :
    d.pushPayload (.other v) aps extras =
      .ok { d with Payload := .android ⟨"", {}, if extras.len > 0 then extras else none⟩ } := by
  by_cases hx : extras.len > 0 <;> simp [Data.pushPayload, hpf, hx]

/-- What `Sign` and `Send` do on an Android envelope, as `Push` calls them:
the call returns, the payload stays, the envelope is serialized once and
signed, and the request is handed to the HTTP client when `http.NewRequest`
accepts the signed URL. -/
theorem sign_send_android (lib : Lib) (cfg : Config) (w w1 : World)
    (ht : w1.trace = w.trace) (hpf : w1.data.Platform = AppAndroid) :
    ∃ r e w',
      Data.Send lib (Data.Sign lib cfg w1 cfg.PostPath).1 (Data.Sign lib cfg w1 cfg.PostPath).2
        = .returned r e w' ∧
      w'.data.Payload = w1.data.Payload ∧
      SignedOnce cfg cfg.PostPath w w' ∧
      (lib.newRequest "POST"
          (cfg.Host ++ cfg.PostPath ++ "?sign=" ++
            Md5 lib ("POST" ++ cfg.Host ++ cfg.PostPath ++ w'.data.dataBytes.getD "" ++
              cfg.AndroidAppMasterSecret)) = none →
        Event.posted ⟨"POST",
          cfg.Host ++ cfg.PostPath ++ "?sign=" ++
            Md5 lib ("POST" ++ cfg.Host ++ cfg.PostPath ++ w'.data.dataBytes.getD "" ++
              cfg.AndroidAppMasterSecret),
          w'.data.dataBytes.getD "", "application/json"⟩ ∈ w'.trace) := by
  obtain ⟨r, e, hre⟩ := outcome_of_not_panic _
    (send_not_panic lib (Data.Sign lib cfg w1 cfg.PostPath).1
      (Data.Sign lib cfg w1 cfg.PostPath).2)
  have hd := send_data lib (Data.Sign lib cfg w1 cfg.PostPath).1
    (Data.Sign lib cfg w1 cfg.PostPath).2
  rw [sign_data] at hd
  have hso := sign_send_once lib cfg w1 cfg.PostPath
  refine ⟨r, e, _, hre, ?_, ?_, ?_⟩
  · rw [hd]
  · obtain ⟨evs, h1, h2⟩ := hso
    exact ⟨evs, by rw [h1, ht], h2⟩
  · rw [hd]
    intro hreq
    rw [← sign_snd_android lib cfg w1 cfg.PostPath hpf] at hreq ⊢
    rw [send_world_of_request lib _ _ hreq, sign_data]
    simp

/-- C11: on an Android envelope, when the body passed to `Push` is not a value
of type `AndroidBody` (nil, a pointer to an `AndroidBody`, any other type),
`Push` never panics: it returns, leaving on the envelope an `AndroidPayload`
with empty `DisplayType`, an all-empty `Body`, and `Extra` equal to `extras`
when that has entries (nil otherwise); the envelope is serialized once and
signed with the Android master secret, and the request is handed to the HTTP
client whenever `http.NewRequest` accepts the signed URL. -/
theorem push_other_body (lib : Lib) (cfg : Config) (w : World) (v aps : GoValue)
    (policy : PolicyArg) (extras : StrMap)
    (hpf : w.data.Platform = AppAndroid) :
    ∃ result err w' p,
      Data.Push lib cfg w (.other v) aps policy extras = .returned result err w' ∧
      w'.data.Payload = .android p ∧ p.DisplayType = "" ∧ p.Body = {} ∧
      (0 < extras.len → p.Extra = extras) ∧ (extras.len = 0 → p.Extra = none) ∧
      SignedOnce cfg cfg.PostPath w w' ∧
      (lib.newRequest "POST"
          (cfg.Host ++ cfg.PostPath ++ "?sign=" ++
            Md5 lib ("POST" ++ cfg.Host ++ cfg.PostPath ++ w'.data.dataBytes.getD "" ++
              cfg.AndroidAppMasterSecret)) = none →
        Event.posted ⟨"POST",
          cfg.Host ++ cfg.PostPath ++ "?sign=" ++
            Md5 lib ("POST" ++ cfg.Host ++ cfg.PostPath ++ w'.data.dataBytes.getD "" ++
              cfg.AndroidAppMasterSecret),
          w'.data.dataBytes.getD "", "application/json"⟩ ∈ w'.trace) := by
  obtain ⟨d, hp, hdp, hpay⟩ : ∃ d, w.data.pushPayload (.other v) aps extras = .ok d ∧
      d.Platform = AppAndroid ∧
      d.Payload = .android ⟨"", {}, if extras.len > 0 then extras else none⟩ :=
    ⟨_, pushPayload_android_other w.data v aps extras hpf, hpf, rfl⟩
  have hx : (0 < extras.len → (if extras.len > 0 then extras else none) = extras) ∧
      (extras.len = 0 → (if extras.len > 0 then extras else none) = none) :=
    ⟨fun h => by simp [h], fun h => by simp [h]⟩
  cases policy with
  | policy pv =>
    obtain ⟨r, e, w', h1, h2, h3, h4⟩ :=
      sign_send_android lib cfg w ⟨d.SetPolicy pv, w.trace⟩ rfl hdp
    refine ⟨r, e, w', _, ?_, h2.trans hpay, rfl, rfl, hx.1, hx.2, h3, h4⟩
    simp only [Data.Push, hp]
    exact h1
  | other pv =>
    obtain ⟨r, e, w', h1, h2, h3, h4⟩ :=
      sign_send_android lib cfg w ⟨d, w.trace⟩ rfl hdp
    refine ⟨r, e, w', _, ?_, h2.trans hpay, rfl, rfl, hx.1, hx.2, h3, h4⟩
    simp only [Data.Push, hp]
    exact h1

/-- C11 at a concrete input: a fresh Android envelope with app key `k`, a
pointer to an `AndroidBody` of display type `alert` (which as a value would
make `Push` panic) and one extra.  The bytes cached and sent hold an empty
`body` and the extras. -/
theorem push_other_body_witness :
    (∃ result err w' p,
      Data.Push (sampleLib (okResponse "")) { AndroidAppKey := "k" }
          ⟨NewData { AndroidAppKey := "k" } AppAndroid, []⟩
          (.other (AndroidBody.toPointer { DisplayType := "alert" })) .nil (.other .nil)
          (some [("k", "v")]) = .returned result err w' ∧
      w'.data.Payload = .android p ∧ p.DisplayType = "" ∧ p.Body = {} ∧
      (0 < StrMap.len (some [("k", "v")]) → p.Extra = some [("k", "v")]) ∧
      (StrMap.len (some [("k", "v")]) = 0 → p.Extra = none) ∧
      SignedOnce { AndroidAppKey := "k" } "/api/send"
        ⟨NewData { AndroidAppKey := "k" } AppAndroid, []⟩ w' ∧
      ((sampleLib (okResponse "")).newRequest "POST"
          ("http://msg.umeng.com" ++ "/api/send" ++ "?sign=" ++
            Md5 (sampleLib (okResponse ""))
              ("POST" ++ "http://msg.umeng.com" ++ "/api/send" ++
                w'.data.dataBytes.getD "" ++ "")) = none →
        Event.posted ⟨"POST",
          "http://msg.umeng.com" ++ "/api/send" ++ "?sign=" ++
            Md5 (sampleLib (okResponse ""))
              ("POST" ++ "http://msg.umeng.com" ++ "/api/send" ++
                w'.data.dataBytes.getD "" ++ ""),
          w'.data.dataBytes.getD "", "application/json"⟩ ∈ w'.trace)) ∧
    (Data.Push (sampleLib (okResponse "")) { AndroidAppKey := "k" }
        ⟨NewData { AndroidAppKey := "k" } AppAndroid, []⟩
        (.other (AndroidBody.toPointer { DisplayType := "alert" })) .nil (.other .nil)
        (some [("k", "v")])).world.data.dataBytes =
      some ("\x7b\"appkey\":\"k\",\"payload\":\x7b\"body\":\x7b\x7d," ++
        "\"extra\":\x7b\"k\":\"v\"\x7d\x7d,\"policy\":\x7b\x7d,\"channel_properties\":" ++
        "\x7b\"huawei_channel_importance\":\"\",\"huawei_channel_category\":\"\"\x7d\x7d") :=
  ⟨push_other_body (sampleLib (okResponse "")) { AndroidAppKey := "k" }
      ⟨NewData { AndroidAppKey := "k" } AppAndroid, []⟩
      (AndroidBody.toPointer { DisplayType := "alert" }) .nil (.other .nil)
      (some [("k", "v")]) (by decide),
    by decide⟩

end Umeng
